import Mathlib

/-
Verification of the Lab-operator reconciliation core (src/labs-operator.py)
against its natural-language specification.

The Python module manipulates untyped nested YAML/JSON-like data.  We embed
that data shallowly as the inductive type `Value` below (Python `None` is
`Value.null`, Python dicts are association lists with string keys — Python
dicts never hold duplicate keys, which is captured by the well-formedness
predicate `Value.wf` where it matters).  Pure functions of the source
(`is_subset`, `compare_resources`, `find_mismatches`, `is_resource_ready`,
`to_camel_case`, `dict_keys_to_camel`, `load_manifests`,
`get_expected_yaml_from_secret`) are translated one-to-one.  Effectful
handlers (`apply_manifest`, `validate_lab`) are embedded as pure functions
over an explicit environment (cluster read results, secret store, file
system, YAML parser) returning the trace of operations / the status patch /
the emitted events, with raised Python exceptions modelled by `Except`.

Modelling conventions, stated once here:
* Attribute/key access `d.get(k)` on a value that is not a mapping raises
  in Python; the total model `Value.get` returns `none` there.  Where a
  claim could be affected, theorems carry mapping-shaped hypotheses.
* base64 encoding/decoding of the side-channel secret is a bijection and is
  modelled as the identity: the secret store holds the decoded text.
* Message strings built with Python f-strings render interpolated values
  with `Value.pystr`, a simplified rendering; no claim depends on the exact
  text of a message.
-/

inductive Value where
  | null
  | bool (b : Bool)
  | int (n : Int)
  | str (s : String)
  | list (xs : List Value)
  | dict (fs : List (String × Value))
deriving Repr

mutual

def Value.beq : Value → Value → Bool
  | .null, .null => true
  | .bool a, .bool b => a == b
  | .int a, .int b => a == b
  | .str a, .str b => a == b
  | .list xs, .list ys => Value.beqList xs ys
  | .dict fs, .dict gs => Value.beqFields fs gs
  | _, _ => false

def Value.beqList : List Value → List Value → Bool
  | [], [] => true
  | x :: xs, y :: ys => Value.beq x y && Value.beqList xs ys
  | _, _ => false

def Value.beqFields : List (String × Value) → List (String × Value) → Bool
  | [], [] => true
  | (k, v) :: fs, (k', v') :: gs => k == k' && Value.beq v v' && Value.beqFields fs gs
  | _, _ => false

end

instance : BEq Value := ⟨Value.beq⟩

/-- Structural induction principle for `Value` (the nested lists make the
auto-generated recursor awkward to use directly). -/
theorem Value.my_ind (motive : Value → Prop)
    (hnull : motive .null) (hbool : ∀ b, motive (.bool b))
    (hint : ∀ n, motive (.int n)) (hstr : ∀ s, motive (.str s))
    (hlist : ∀ xs, (∀ x ∈ xs, motive x) → motive (.list xs))
    (hdict : ∀ fs, (∀ p ∈ fs, motive p.2) → motive (.dict fs)) : ∀ v, motive v
  | .null => hnull
  | .bool b => hbool b
  | .int n => hint n
  | .str s => hstr s
  | .list xs => hlist xs (fun x hx =>
      Value.my_ind motive hnull hbool hint hstr hlist hdict x)
  | .dict fs => hdict fs (fun p hp =>
      Value.my_ind motive hnull hbool hint hstr hlist hdict p.2)
termination_by v => sizeOf v
decreasing_by
  · have h := List.sizeOf_lt_of_mem hx
    simp only [Value.list.sizeOf_spec]
    omega
  · have h1 := List.sizeOf_lt_of_mem hp
    have h2 : sizeOf p.2 < sizeOf p := by
      obtain ⟨a, b⟩ := p
      simp only [Prod.mk.sizeOf_spec]
      omega
    simp only [Value.dict.sizeOf_spec]
    omega

theorem Value.beq_iff : ∀ a b : Value, (Value.beq a b = true) ↔ a = b := by
  intro a
  induction a using Value.my_ind with
  | hnull => intro b; cases b <;> simp [Value.beq]
  | hbool x => intro b; cases b <;> simp [Value.beq]
  | hint x => intro b; cases b <;> simp [Value.beq]
  | hstr x => intro b; cases b <;> simp [Value.beq]
  | hlist xs ih =>
    intro b; cases b <;> simp [Value.beq]
    rename_i ys
    induction xs generalizing ys with
    | nil => cases ys <;> simp [Value.beqList]
    | cons x xs ihx =>
      cases ys with
      | nil => simp [Value.beqList]
      | cons y ys =>
        have hx := ih x (by simp)
        have hxs := ihx (fun z hz => ih z (by simp [hz])) ys
        simp [Value.beqList, hx, hxs]
  | hdict fs ih =>
    intro b; cases b <;> simp [Value.beq]
    rename_i gs
    induction fs generalizing gs with
    | nil => cases gs <;> simp [Value.beqFields]
    | cons f fs ihf =>
      cases gs with
      | nil => simp [Value.beqFields]
      | cons g gs =>
        obtain ⟨k, v⟩ := f
        obtain ⟨k', v'⟩ := g
        have hv := ih ⟨k, v⟩ (by simp)
        have hfs := ihf (fun z hz => ih z (by simp [hz])) gs
        simp at hv
        simp [Value.beqFields, hv, hfs, and_assoc]

instance : LawfulBEq Value where
  eq_of_beq h := (Value.beq_iff _ _).mp h
  rfl := (Value.beq_iff _ _).mpr rfl

instance : DecidableEq Value := fun a b =>
  decidable_of_iff (Value.beq a b = true) (Value.beq_iff a b)

/-- First-match lookup in an association list; on Python dicts (unique keys)
this is exactly dict lookup. -/
def lookupF : List (String × Value) → String → Option Value
  | [], _ => none
  | (k', v) :: rest, k => if k' = k then some v else lookupF rest k

/-- Python `d.get(k)`: `none` both when the receiver is not a mapping
(Python would raise there) and when the key is absent. -/
def Value.get : Value → String → Option Value
  | .dict fs, k => lookupF fs k
  | _, _ => none

/-- Python `d.get(k, default)`: the default is returned only when the key is
absent; a key stored with value `None` yields `null`. -/
def Value.getD (v : Value) (k : String) (d : Value) : Value :=
  (v.get k).getD d

/-- Python `k in d` for mappings (`false` on non-mappings, where Python
membership means something else or raises). -/
def Value.hasKey (v : Value) (k : String) : Bool :=
  match v with
  | .dict fs => fs.any (fun p => p.1 == k)
  | _ => false

/-- Python truthiness of a value (`bool(v)`). -/
def Value.truthy : Value → Bool
  | .null => false
  | .bool b => b
  | .int n => !(n == 0)
  | .str s => !(s == "")
  | .list xs => !xs.isEmpty
  | .dict fs => !fs.isEmpty

mutual

/-- Well-formedness: every mapping in the value has pairwise-distinct keys.
Every value reachable in Python satisfies this (dict keys are unique). -/
def Value.wf : Value → Bool
  | .list xs => Value.wfList xs
  | .dict fs => Value.keysNodup fs && Value.wfFields fs
  | _ => true

def Value.wfList : List Value → Bool
  | [] => true
  | x :: xs => Value.wf x && Value.wfList xs

def Value.wfFields : List (String × Value) → Bool
  | [] => true
  | (_, v) :: fs => Value.wf v && Value.wfFields fs

def Value.keysNodup : List (String × Value) → Bool
  | [] => true
  | (k, _) :: fs => !(fs.any (fun p => p.1 == k)) && Value.keysNodup fs

end

/-
Source lines 127-152: `is_subset(expected, live)`.
-/

mutual

/-- Source `is_subset`: recursively checks that every field of `expected`
is present and `is_subset`-matched in `live`; for lists, every expected
element must match some live element; scalars compare by equality. -/
def is_subset : Value → Value → Bool
  | .dict fs, .dict gs => subsetFields fs gs
  | .list xs, .list ys => subsetList xs ys
  | e, l => e == l

/-- The `for k, v in expected.items()` loop of `is_subset` on mappings. -/
def subsetFields : List (String × Value) → List (String × Value) → Bool
  | [], _ => true
  | (k, v) :: rest, gs =>
    (match lookupF gs k with
     | none => false
     | some lv => is_subset v lv) && subsetFields rest gs

/-- The `for idx, e in enumerate(expected)` loop of `is_subset` on lists. -/
def subsetList : List Value → List Value → Bool
  | [], _ => true
  | e :: rest, ys => anySubset e ys && subsetList rest ys

/-- The `any(is_subset(e, l) ... for l in live)` generator of `is_subset`. -/
def anySubset : Value → List Value → Bool
  | _, [] => false
  | e, l :: ls => is_subset e l || anySubset e ls

end

/-
Source lines 154-188: `compare_resources(expected, live)`.
-/

/-- Source `filter_metadata`: keeps only `name` and `namespace` of a
metadata mapping (both possibly `None`); equality of the filtered dicts is
equality of this pair. -/
def filter_metadata (meta : Value) : Option Value × Option Value :=
  (meta.get "name", meta.get "namespace")

/-- Source `compare_resources`: kind-aware authoritative match. -/
def compare_resources (expected live : Value) : Bool :=
  let kind := expected.get "kind"
  if kind == some (.str "ConfigMap") || kind == some (.str "Secret") then
    (expected.get "kind" == live.get "kind") &&
    (expected.get "apiVersion" == live.get "apiVersion") &&
    (filter_metadata (expected.getD "metadata" (.dict [])) ==
      filter_metadata (live.getD "metadata" (.dict []))) &&
    is_subset (expected.getD "data" (.dict [])) (live.getD "data" (.dict [])) &&
    (if kind == some (.str "Secret") then expected.get "type" == live.get "type" else true)
  else if kind == some (.str "Pod") then
    let expected_spec := expected.getD "spec" (.dict [])
    let live_spec := live.getD "spec" (.dict [])
    (expected.get "kind" == live.get "kind") &&
    (filter_metadata (expected.getD "metadata" (.dict [])) ==
      filter_metadata (live.getD "metadata" (.dict []))) &&
    is_subset (expected_spec.getD "containers" (.list []))
      (live_spec.getD "containers" (.list []))
  else
    (expected.get "kind" == live.get "kind") &&
    (expected.get "apiVersion" == live.get "apiVersion") &&
    (filter_metadata (expected.getD "metadata" (.dict [])) ==
      filter_metadata (live.getD "metadata" (.dict []))) &&
    is_subset (expected.getD "spec" (.dict [])) (live.getD "spec" (.dict []))

/-
Source lines 190-241: `find_mismatches(expected, live, path)`.
The Python function appends path-qualified message strings; we keep the
same information as a structured `Mismatch` (the exact message text is
irrelevant to every claim — only which mismatches are produced matters).
-/

inductive Mismatch where
  | missing (path : String)
  | valueMismatch (path : String) (expected live : Value)
  | missingMount (path : String) (mount : Option Value × Option Value)
  | missingVolume (path : String) (name : Option Value)
  | missingPvc (path : String) (name : Option Value)
deriving DecidableEq, Repr

/-- The `(m.get("mountPath"), m.get("name"))` pairs of a mount list. -/
def mountPairs (xs : List Value) : List (Option Value × Option Value) :=
  xs.map (fun m => (m.get "mountPath", m.get "name"))

/-- Python dict-comprehension `{v.get("name"): v for v in xs}`: first-key
insertion order, later values override earlier ones. -/
def upsertVol (acc : List (Option Value × Value)) (k : Option Value) (v : Value) :
    List (Option Value × Value) :=
  if acc.any (fun p => p.1 == k) then
    acc.map (fun p => if p.1 == k then (p.1, v) else p)
  else acc ++ [(k, v)]

def volsByName (xs : List Value) : List (Option Value × Value) :=
  xs.foldl (fun acc v => upsertVol acc (v.get "name") v) []

def lookupVol : List (Option Value × Value) → Option Value → Option Value
  | [], _ => none
  | (k', v) :: rest, k => if k' = k then some v else lookupVol rest k

/-- Python set construction over the mount pairs: keep the first occurrence
of each distinct pair (iteration order of a set is unspecified; only the
collection of distinct elements matters, and this order is as good as any). -/
def pySetList : List (Option Value × Option Value) → List (Option Value × Option Value)
  | [] => []
  | x :: xs => x :: pySetList (xs.filter (fun y => !(y == x)))
termination_by l => l.length
decreasing_by
  exact Nat.lt_succ_of_le (List.length_filter_le _ _)

/-- The `path.endswith("volumeMounts")` branch of `find_mismatches`:
compare `(mountPath, name)` pairs as sets. -/
def mountMismatches (xs ys : List Value) (path : String) : List Mismatch :=
  (pySetList (mountPairs xs)).filterMap (fun m =>
    if (mountPairs ys).contains m then none else some (.missingMount path m))

/-- The `path.endswith("volumes")` branch of `find_mismatches`: compare by
volume name, and flag a missing `persistentVolumeClaim` sub-field. -/
def volMismatches (xs ys : List Value) (path : String) : List Mismatch :=
  (volsByName xs).flatMap (fun p =>
    match lookupVol (volsByName ys) p.1 with
    | none => [.missingVolume path p.1]
    | some lv =>
      if p.2.hasKey "persistentVolumeClaim" && !(lv.hasKey "persistentVolumeClaim") then
        [.missingPvc path p.1]
      else [])

mutual

/-- Source `find_mismatches`: diagnostic-only recursive diff, skipping the
`apiVersion` key in every mapping it recurses into. -/
def find_mismatches (expected live : Value) (path : String) : List Mismatch :=
  match expected, live with
  | .dict fs, .dict gs => fmFields fs (.dict gs) path
  | .list xs, .list ys =>
    if path.endsWith "volumeMounts" then mountMismatches xs ys path
    else if path.endsWith "volumes" then volMismatches xs ys path
    else fmIndex xs ys path 0
  | _, _ => []

/-- The `for k, v in expected.items()` loop of `find_mismatches`. -/
def fmFields (fs : List (String × Value)) (live : Value) (path : String) : List Mismatch :=
  match fs with
  | [] => []
  | (k, v) :: rest =>
    if k = "apiVersion" then fmFields rest live path
    else
      let sub_path := if path = "" then k else path ++ "." ++ k
      (if !(live.hasKey k) then [Mismatch.missing sub_path]
       else
         match v, live.get k with
         | .dict _, some (.dict gs') => find_mismatches v (.dict gs') sub_path
         | .list _, some (.list ys') => find_mismatches v (.list ys') sub_path
         | _, some lv => if v == lv then [] else [Mismatch.valueMismatch sub_path v lv]
         | _, none => []) ++ fmFields rest live path

/-- The positional `for i, e in enumerate(expected)` loop of
`find_mismatches` for generic lists. -/
def fmIndex (xs ys : List Value) (path : String) (i : Nat) : List Mismatch :=
  match xs, ys with
  | [], _ => []
  | e :: es, l :: ls =>
    find_mismatches e l (path ++ "[" ++ toString i ++ "]") ++ fmIndex es ls path (i + 1)
  | e :: es, [] =>
    Mismatch.missing (path ++ "[" ++ toString i ++ "]") :: fmIndex es [] path (i + 1)

end

/-
Source lines 243-257: `to_camel_case` and `dict_keys_to_camel`.
-/

/-- Python `str.capitalize()`: first character upper-cased, the rest
lower-cased. -/
def pyCapitalize (s : String) : String :=
  match s.toList with
  | [] => ""
  | c :: rest => String.mk (c.toUpper :: rest.map Char.toLower)

/-- Python `s.split("_")` over the character list: adjacent separators
yield empty parts, and the empty string yields one empty part, exactly as
in Python. -/
def splitUnderscore : List Char → List (List Char)
  | [] => [[]]
  | c :: rest =>
    match splitUnderscore rest with
    | [] => if c = '_' then [[], []] else [[c]]
    | h :: t => if c = '_' then [] :: h :: t else (c :: h) :: t

/-- Source `to_camel_case`. -/
def to_camel_case (s : String) : String :=
  match (splitUnderscore s.toList).map (fun cs => String.mk cs) with
  | [] => ""
  | p :: parts => p ++ String.join (parts.map pyCapitalize)

mutual

/-- Source `dict_keys_to_camel`: rewrite every mapping key from snake case
to the camel case used by descriptors. -/
def dict_keys_to_camel : Value → Value
  | .dict fs => .dict (camelFields fs)
  | .list xs => .list (camelList xs)
  | v => v

def camelFields : List (String × Value) → List (String × Value)
  | [] => []
  | (k, v) :: fs => (to_camel_case k, dict_keys_to_camel v) :: camelFields fs

def camelList : List Value → List Value
  | [] => []
  | x :: xs => dict_keys_to_camel x :: camelList xs

end

/-
Source lines 259-295: `is_resource_ready(kind, live)`.
-/

/-- The per-container check of `is_resource_ready` for Pods: container
ready (truthiness of the `ready` field), no `waiting` state with reason
CrashLoopBackOff or Error, no `terminated` state. -/
def containerOk (cs : Value) : Bool :=
  (cs.getD "ready" (.bool false)).truthy &&
  (let state := cs.getD "state" (.dict [])
   (match state.get "waiting" with
    | some w =>
      let reason := w.getD "reason" (.str "")
      !(reason == .str "CrashLoopBackOff" || reason == .str "Error")
    | none => true) &&
   !(state.hasKey "terminated"))

/-- Source `is_resource_ready`: per-kind readiness classifier.  The `kind`
argument is the raw `expected["kind"]` value.  A non-sequence
`containerStatuses` (where Python would raise while iterating) is modelled
as not ready. -/
def is_resource_ready (kind : Value) (live : Value) : Bool :=
  if kind == .str "Pod" then
    let status := live.getD "status" (.dict [])
    let phase := status.get "phase"
    if !(phase == some (.str "Running")) then false
    else
      let csv := status.getD "containerStatuses" (.list [])
      if !csv.truthy then false
      else
        match csv with
        | .list cs => cs.all containerOk
        | _ => false
  else if kind == .str "Service" then true
  else if kind == .str "ConfigMap" then true
  else if kind == .str "Secret" then true
  else if kind == .str "PersistentVolumeClaim" then
    (live.getD "status" (.dict [])).get "phase" == some (.str "Bound")
  else true

/-
Python exceptions and the rendering of values in messages.
-/

inductive PyErr where
  | apiException (status : Nat) (reason : String)
  | valueError (msg : String)
  | notImplementedError (msg : String)
  | keyError (key : String)
  | typeError (msg : String)
  | attributeError (msg : String)
deriving DecidableEq, Repr

mutual

/-- Python `str(v)` as used inside f-string messages.  Simplified rendering
(nested collections are not rendered exactly as Python would); no claim
depends on message text. -/
def Value.pystr : Value → String
  | .null => "None"
  | .bool true => "True"
  | .bool false => "False"
  | .int n => toString n
  | .str s => s
  | .list xs => "[" ++ Value.pystrList xs ++ "]"
  | .dict fs => "dict(" ++ Value.pystrFields fs ++ ")"

def Value.pystrList : List Value → String
  | [] => ""
  | [x] => Value.pystr x
  | x :: xs => Value.pystr x ++ ", " ++ Value.pystrList xs

def Value.pystrFields : List (String × Value) → String
  | [] => ""
  | [(k, v)] => k ++ ": " ++ Value.pystr v
  | (k, v) :: fs => k ++ ": " ++ Value.pystr v ++ ", " ++ Value.pystrFields fs

end

/-- Python `str(e)` for an exception, as used in `except Exception` message
interpolation (simplified rendering). -/
def PyErr.pystr : PyErr → String
  | .apiException s r => "(" ++ toString s ++ ") " ++ r
  | .valueError m => m
  | .notImplementedError m => m
  | .keyError k => k
  | .typeError m => m
  | .attributeError m => m

/-
Source lines 63-107: `apply_manifest(manifest, namespace)`, embedded as the
trace of cluster operations it performs.  The environment supplies the
result of the initial Pod read (`podLive`, `none` meaning a 404) and, for
each deletion-poll attempt `i`, whether the Pod is still present
(`presentAt i`); `genericLive` records whether a live object of the
non-Pod kind named by the descriptor exists — the source never consults it, which is
exactly what claim C1 is about.  Reads are modelled as succeeding or
404-failing; deletion is modelled as succeeding (other ApiExceptions would
propagate, outside the claims considered here).
-/

inductive ApplyOp where
  | readPod
  | deletePod
  | sleep (units : Nat)
  | pollPod
  | createPod
  | readGeneric
  | replaceGeneric
  | createGeneric
deriving DecidableEq, Repr

inductive ApplyError where
  | podNotDeleted
deriving DecidableEq, Repr

structure ApplyEnv where
  podLive : Option Value
  presentAt : Nat → Bool
  genericLive : Option Value

/-- Python `fs.setdefault(k, d)`: returns the stored value, inserting the
default when the key is absent. -/
def set_default (fs : List (String × Value)) (k : String) (d : Value) :
    List (String × Value) × Value :=
  match lookupF fs k with
  | some v => (fs, v)
  | none => (fs ++ [(k, d)], d)

def setKey (fs : List (String × Value)) (k : String) (v : Value) : List (String × Value) :=
  fs.map (fun p => if p.1 = k then (k, v) else p)

/-- The in-place mutation performed at the top of `apply_manifest`:
`metadata = manifest.setdefault("metadata", {})` followed by
`metadata.setdefault("namespace", namespace)`.  When the existing metadata
value is not a mapping Python would raise; the model leaves the manifest
unchanged there. -/
def with_defaults (m : Value) (nspace : String) : Value :=
  match m with
  | .dict fs =>
    let fm := set_default fs "metadata" (.dict [])
    match fm.2 with
    | .dict ms =>
      let mm := set_default ms "namespace" (.str nspace)
      .dict (setKey fm.1 "metadata" (.dict mm.1))
    | _ => .dict fm.1
  | v => v

/-- The `for _ in range(30)` deletion-poll loop of `apply_manifest`: each
attempt sleeps 1 time unit then reads the Pod; a 404 read creates the new
Pod and breaks; exhaustion falls to the for-else raise. Returns the trace
and whether the Pod was created. -/
def pod_wait_loop (present : Nat → Bool) (i : Nat) : Nat → List ApplyOp × Bool
  | 0 => ([], false)
  | r + 1 =>
    if present i then
      let pr := pod_wait_loop present (i + 1) r
      ([.sleep 1, .pollPod] ++ pr.1, pr.2)
    else
      ([.sleep 1, .pollPod, .createPod], true)

/-- Source `apply_manifest`: for a Pod, read the live Pod; when present and
different under `compare_resources`, delete and poll (30 attempts, 1 time
unit apart) until gone, then create; when present and matching, no-op; when
absent, create.  For every other kind, a single generic create
(`create_from_dict`). -/
def apply_manifest (m : Value) (nspace : String) (env : ApplyEnv) :
    List ApplyOp × Option ApplyError :=
  let kind := m.get "kind"
  let md := with_defaults m nspace
  if kind == some (.str "Pod") then
    match env.podLive with
    | some existing =>
      if compare_resources md existing then ([.readPod], none)
      else
        let pl := pod_wait_loop env.presentAt 0 30
        ([.readPod, .deletePod] ++ pl.1, if pl.2 then none else some .podNotDeleted)
    | none => ([.readPod, .createPod], none)
  else
    ([.createGeneric], none)

/-
Source lines 43-53: `get_expected_yaml_from_secret(namespace, secret_name,
key)`.  The secret store maps (namespace, secret name) to the decoded data
mapping; base64 is modelled as the identity, so `if not encoded` is an
emptiness test on the stored text.
-/

def lookupS : List (String × String) → String → Option String
  | [], _ => none
  | (k', v) :: rest, k => if k' = k then some v else lookupS rest k

def get_expected_yaml_from_secret (secrets : String → String → Option (List (String × String)))
    (nspace secret_name key : String) : Except PyErr String :=
  match secrets nspace secret_name with
  | none => .error (.apiException 404 "Not Found")
  | some data =>
    match lookupS data key with
    | none => .error (.valueError ("Secret " ++ secret_name ++ " does not have key " ++ key))
    | some enc =>
      if enc == "" then
        .error (.valueError ("Secret " ++ secret_name ++ " does not have key " ++ key))
      else .ok enc

/-
Source lines 55-61: `load_manifests(yaml_str)`; the YAML codec itself is an
external library, supplied by the environment as `yamlDocs` (a parse error
carries the exception text); `load_manifests` drops the null documents.
-/

def load_manifests (yamlDocs : String → Except String (List (Option Value)))
    (s : String) : Except String (List Value) :=
  (yamlDocs s).map (fun docs => docs.filterMap id)

/-
Source lines 345-507: `validate_lab`.  The Lab spec, prior status, emitted
events and the accumulated kopf patch are modelled explicitly; the
environment supplies the YAML parser, the secret store, the file system and
per-kind live reads.
-/

structure ExpectedRef where
  secretName : Option String
  key : Option String
deriving DecidableEq, Repr

structure LabSpec where
  expected : Option String
  expectedRef : Option ExpectedRef
  expectedFile : Option String
deriving DecidableEq, Repr

/-- Python truthiness of an optional string field (`None` and `""` are
falsy).  An `expectedRef` models a non-empty mapping, so its truthiness is
`Option.isSome`. -/
def strTruthy : Option String → Bool
  | none => false
  | some s => !(s == "")

/-- One entry of `status.resources` (the `res_status` dict of the source);
`mismatches = none` means the key is absent from the dict. -/
structure ResStatus where
  kind : Value
  name : Value
  nspace : Value
  status : String
  error : Option String
  mismatches : Option (List Mismatch)
deriving DecidableEq, Repr

structure Event where
  etype : String
  reason : String
  message : String
deriving DecidableEq, Repr

/-- The four events of the source.  Message texts are lightly paraphrased
(the source messages contain characters we avoid in string literals); no
claim depends on message text. -/
def initializingEvent : Event :=
  ⟨"Normal", "Initializing", "Please wait, the Lab is initializing and preparing resources."⟩

def labReadyEvent : Event :=
  ⟨"Normal", "LabReady", "The Lab is ready to be fixed. Enjoy!"⟩

def labFixedEvent : Event :=
  ⟨"Normal", "LabFixed", "The Lab is successfully fixed."⟩

def labNotFixedEvent : Event :=
  ⟨"Warning", "LabNotFixed", "The current state does not match the expected state. Keep looking for the issue."⟩

/-- Accumulated `patch.status` fields: `none` = field never assigned,
`some x` = field assigned the value `x` (which may itself be Python
`None`). -/
structure StatusPatch where
  ready : Option Bool
  message : Option (Option String)
  error : Option (Option String)
  resources : Option (List ResStatus)
deriving DecidableEq, Repr

structure SpecPatch where
  expected : Option (Option String)
  expectedRef : Option ExpectedRef
deriving DecidableEq, Repr

structure Patch where
  status : StatusPatch
  spec : SpecPatch
deriving DecidableEq, Repr

def emptySpecPatch : SpecPatch := ⟨none, none⟩

/-- The previously stored status of the Lab body (`body.get("status", {})`):
`ready` and `resources` as last persisted, `none` when absent. -/
structure BodyStatus where
  ready : Option Bool
  resources : Option (List ResStatus)

/-- Result of a namespaced read for one of the five supported kinds. -/
inductive ReadResult where
  | found (v : Value)
  | apiError (status : Nat) (reason : String)

structure ValidateEnv where
  yamlDocs : String → Except String (List (Option Value))
  secrets : String → String → Option (List (String × String))
  readFile : String → Except String String
  readResource : String → Value → Value → ReadResult

/-- Python `d.get(k)` with an exception when the receiver is not a mapping
(`AttributeError`). -/
def Value.pyGet (v : Value) (k : String) : Except PyErr (Option Value) :=
  match v with
  | .dict fs => .ok (lookupF fs k)
  | _ => .error (.attributeError "object has no attribute get")

/-- Python `d[k]`: `KeyError` when absent, `TypeError` when the receiver is
not subscriptable by a string key. -/
def Value.pyIndex (v : Value) (k : String) : Except PyErr Value :=
  match v with
  | .dict fs =>
    match lookupF fs k with
    | some x => .ok x
    | none => .error (.keyError k)
  | _ => .error (.typeError "value is not subscriptable")

/-- Source lines 109-125: `get_live_resource(kind, api_version, name,
namespace)` — dispatch over the five supported kinds, key-normalizing the
result; `NotImplementedError` otherwise.  `api_version` is accepted and
ignored, as in the source. -/
def get_live_resource (env : ValidateEnv) (kind api_version name nspace : Value) :
    Except PyErr Value :=
  match kind with
  | .str k =>
    if k = "Pod" || k = "ConfigMap" || k = "Secret" || k = "PersistentVolumeClaim" || k = "Service" then
      match env.readResource k name nspace with
      | .found v => .ok (dict_keys_to_camel v)
      | .apiError s r => .error (.apiException s r)
    else .error (.notImplementedError ("get_live_resource does not support kind: " ++ k))
  | other => .error (.notImplementedError ("get_live_resource does not support kind: " ++ other.pystr))

/-- The body of the `try` block of the per-descriptor loop (source lines
427-432): direct indexing (KeyError/TypeError possible) followed by the
live fetch. -/
def try_fetch (env : ValidateEnv) (nspace : String) (expected : Value) : Except PyErr Value :=
  match expected.pyIndex "kind" with
  | .error e => .error e
  | .ok kind =>
    match expected.pyIndex "apiVersion" with
    | .error e => .error e
    | .ok api_version =>
      match expected.pyIndex "metadata" with
      | .error e => .error e
      | .ok meta =>
        match meta.pyIndex "name" with
        | .error e => .error e
        | .ok name =>
          match meta.pyGet "namespace" with
          | .error e => .error e
          | .ok nso => get_live_resource env kind api_version name (nso.getD (.str nspace))

/-- The `res_status` scaffold of the per-descriptor loop (source lines
419-425), built OUTSIDE the `try`, so a failure here propagates out of
the handler: `(kind, name, namespace)` of the entry. -/
def res_scaffold (nspace : String) (expected : Value) : Except PyErr (Value × Value × Value) :=
  match expected.pyGet "kind" with
  | .error e => .error e
  | .ok ko =>
    match expected.pyGet "metadata" with
    | .error e => .error e
    | .ok mo =>
      let metaV := mo.getD (.dict [])
      match metaV.pyGet "name" with
      | .error e => .error e
      | .ok no =>
        match metaV.pyGet "namespace" with
        | .error e => .error e
        | .ok nso => .ok (ko.getD .null, no.getD .null, nso.getD (.str nspace))

/-- The `try`/`except` part of one iteration of the per-descriptor loop
(source lines 426-470): every exception inside the `try` is captured and
turned into a status, so this part is total.  Returns the entry and the
contribution of this descriptor to `all_match` (`true` exactly when the loop
leaves `all_match` untouched). -/
def classify_body (env : ValidateEnv) (nspace : String) (expected kindV nameV nsV : Value) :
    ResStatus × Bool :=
  match try_fetch env nspace expected with
  | .ok live =>
    if compare_resources expected live then
      if is_resource_ready kindV live then
        (⟨kindV, nameV, nsV, "Ready", none, none⟩, true)
      else
        (⟨kindV, nameV, nsV, "NotReady", some (kindV.pystr ++ " is not ready"), none⟩, false)
    else
      let mismatches := find_mismatches expected live ""
      if mismatches.isEmpty then
        if is_resource_ready kindV live then
          (⟨kindV, nameV, nsV, "Ready", none, none⟩, true)
        else
          (⟨kindV, nameV, nsV, "NotReady", some (kindV.pystr ++ " is not ready"), none⟩, false)
      else
        (⟨kindV, nameV, nsV, "NotMatching", none, some mismatches⟩, false)
  | .error (.apiException 404 _) =>
    (⟨kindV, nameV, nsV, "NotFound",
      some ("Resource " ++ kindV.pystr ++ "/" ++ nameV.pystr ++ " not found in namespace " ++ nsV.pystr),
      none⟩, false)
  | .error (.apiException _ reason) =>
    (⟨kindV, nameV, nsV, "Error", some ("Failed to get live resource: " ++ reason), none⟩, false)
  | .error e =>
    (⟨kindV, nameV, nsV, "Error", some ("Failed to get live resource: " ++ e.pystr), none⟩, false)

/-- One iteration of the per-descriptor loop of `validate_lab` (source
lines 418-472). -/
def classify_one (env : ValidateEnv) (nspace : String) (expected : Value) :
    Except PyErr (ResStatus × Bool) :=
  match res_scaffold nspace expected with
  | .error e => .error e
  | .ok kns => .ok (classify_body env nspace expected kns.1 kns.2.1 kns.2.2)

/-- The whole per-descriptor loop: the accumulated entries in order plus
the final `all_match` flag (initialized `True`, conjoined per iteration). -/
def validate_docs (env : ValidateEnv) (nspace : String) :
    List Value → Except PyErr (List ResStatus × Bool)
  | [] => .ok ([], true)
  | d :: rest =>
    match classify_one env nspace d with
    | .error e => .error e
    | .ok r =>
      match validate_docs env nspace rest with
      | .error e => .error e
      | .ok rs => .ok (r.1 :: rs.1, r.2 && rs.2)

/-
Source line 478: `resource_statuses.sort(key=(kind, namespace, name))`.
Python list.sort is a stable sort by the key tuple; a stable insertion sort
by the same total preorder produces the identical output.  Python tuple
comparison on unlike value types raises; `Value.cmp` totalizes it by
constructor rank (entries produced by the loop carry string keys in
practice, where the orders agree).
-/

def Value.rank : Value → Nat
  | .null => 0
  | .bool _ => 1
  | .int _ => 2
  | .str _ => 3
  | .list _ => 4
  | .dict _ => 5

mutual

def Value.cmp : Value → Value → Ordering
  | .null, .null => .eq
  | .bool a, .bool b => compare a b
  | .int a, .int b => compare a b
  | .str a, .str b => compare a b
  | .list xs, .list ys => Value.cmpList xs ys
  | .dict fs, .dict gs => Value.cmpFields fs gs
  | a, b => compare a.rank b.rank

def Value.cmpList : List Value → List Value → Ordering
  | [], [] => .eq
  | [], _ :: _ => .lt
  | _ :: _, [] => .gt
  | x :: xs, y :: ys =>
    match Value.cmp x y with
    | .eq => Value.cmpList xs ys
    | o => o

def Value.cmpFields : List (String × Value) → List (String × Value) → Ordering
  | [], [] => .eq
  | [], _ :: _ => .lt
  | _ :: _, [] => .gt
  | (k, v) :: fs, (k', v') :: gs =>
    match compare k k' with
    | .eq =>
      match Value.cmp v v' with
      | .eq => Value.cmpFields fs gs
      | o => o
    | o => o

end

/-- Non-strict comparison of two entries by the sort key
`(kind, namespace, name)`. -/
def statusKeyLe (a b : ResStatus) : Bool :=
  match Value.cmp a.kind b.kind with
  | .lt => true
  | .gt => false
  | .eq =>
    match Value.cmp a.nspace b.nspace with
    | .lt => true
    | .gt => false
    | .eq =>
      match Value.cmp a.name b.name with
      | .gt => false
      | _ => true

def insertSorted (x : ResStatus) : List ResStatus → List ResStatus
  | [] => [x]
  | y :: ys => if statusKeyLe x y then x :: y :: ys else y :: insertSorted x ys

/-- Stable sort of the resource status entries by `(kind, namespace,
name)`. -/
def sortStatuses : List ResStatus → List ResStatus
  | [] => []
  | x :: xs => insertSorted x (sortStatuses xs)

/-- Source lines 493-507: the readiness-transition events.  `last_ready`
is `body.get("status", {}).get("ready")`; `is not True` / `is not False`
are the `!= some true` / `!= some false` tests. -/
def readiness_events (all_match : Bool) (last_ready : Option Bool) : List Event :=
  if all_match && !(last_ready == some true) then [labFixedEvent]
  else if !all_match && !(last_ready == some false) then [labNotFixedEvent]
  else []

/-- Source lines 404-507, after the expected text has been resolved: parse
(empty text means no documents), run the per-descriptor loop, sort the
entries, patch `status.resources` only when changed from the stored value,
set `status.ready`/`message`/`error`, and emit the transition events.
`events0`/`spec_patch` carry what the resolution phase already
emitted/patched. -/
def run_validation (env : ValidateEnv) (nspace : String) (body : BodyStatus)
    (expected_yaml : String) (events0 : List Event) (spec_patch : SpecPatch) :
    Except PyErr (Patch × List Event) :=
  let docsE : Except String (List Value) :=
    if expected_yaml == "" then .ok [] else load_manifests env.yamlDocs expected_yaml
  match docsE with
  | .error e =>
    .ok (⟨⟨some false, none, some (some ("Failed to parse expected manifests: " ++ e)), none⟩,
      spec_patch⟩, events0)
  | .ok expected_docs =>
    match validate_docs env nspace expected_docs with
    | .error e => .error e
    | .ok (resource_statuses, all_match) =>
      let sorted := sortStatuses resource_statuses
      let resourcesP : Option (List ResStatus) :=
        if body.resources == some sorted then none else some sorted
      let statusP : StatusPatch :=
        ⟨some all_match,
         some (if all_match then some "The Lab is successfully fixed. Well done!" else none),
         some (if all_match then none
               else some "The Lab is not fixed yet. Please ensure all resources match the expected configuration."),
         resourcesP⟩
      .ok (⟨statusP, spec_patch⟩, events0 ++ readiness_events all_match body.ready)

/-- Tag recording which spec field supplied the expected text (specification
ghost data; `validate_lab` ignores it). -/
inductive ExpectedSource where
  | inline
  | ref
  | file
deriving DecidableEq, Repr

inductive ResolveOutcome where
  | raised (e : PyErr)
  | failed (patch : Patch) (events : List Event)
  | resolved (src : ExpectedSource) (text : String) (spec_patch : SpecPatch) (events : List Event)
deriving DecidableEq, Repr

/-- Source lines 354-402: resolution of the expected text.  Inline
`expected` with no `expectedRef`: emit Initializing, persist the side
secret (the write is modelled as succeeding), patch the spec to the ref,
emit LabReady, and use the inline text.  Else `expectedRef`: resolve via
the secret store — note the call is NOT wrapped in try/except, so a
failure is `raised` out of the handler.  Else `expectedFile`: read it,
failure becoming a status error.  Else: status error. -/
def resolve_expected_yaml (env : ValidateEnv) (spec : LabSpec) (name nspace : String) :
    ResolveOutcome :=
  if strTruthy spec.expected && spec.expectedRef.isNone then
    let secret_name := "lab-" ++ name ++ "-expected"
    .resolved .inline (spec.expected.getD "")
      ⟨some none, some ⟨some secret_name, some "expected.yaml"⟩⟩
      [initializingEvent, labReadyEvent]
  else
    match spec.expectedRef with
    | some r =>
      let key := r.key.getD "expected.yaml"
      match r.secretName with
      | none => .raised (.valueError "read_namespaced_secret requires a secret name")
      | some sn =>
        match get_expected_yaml_from_secret env.secrets nspace sn key with
        | .error e => .raised e
        | .ok text => .resolved .ref text emptySpecPatch []
    | none =>
      match spec.expectedFile with
      | some f =>
        if f == "" then
          .failed ⟨⟨some false, none,
            some (some "Expected manifests not defined in spec.expected, spec.expectedFile, or spec.expectedRef"),
            none⟩, emptySpecPatch⟩ []
        else
          match env.readFile f with
          | .error e =>
            .failed ⟨⟨some false, none, some (some ("Failed to read expectedFile: " ++ e)), none⟩,
              emptySpecPatch⟩ []
          | .ok text => .resolved .file text emptySpecPatch []
      | none =>
        .failed ⟨⟨some false, none,
          some (some "Expected manifests not defined in spec.expected, spec.expectedFile, or spec.expectedRef"),
          none⟩, emptySpecPatch⟩ []

/-- Source lines 345-507: the `validate_lab` handler.  Returns the
accumulated patch and the emitted events, or the exception raised out of
the handler (in which case events already fired are not recorded — the
only raising path outside the loop fires none). -/
def validate_lab (env : ValidateEnv) (spec : LabSpec) (name nspace : String)
    (body : BodyStatus) : Except PyErr (Patch × List Event) :=
  match resolve_expected_yaml env spec name nspace with
  | .raised e => .error e
  | .failed patch events => .ok (patch, events)
  | .resolved _ text spec_patch events0 => run_validation env nspace body text events0 spec_patch

/-
Supporting lemmas about `is_subset`.
-/

theorem anySubset_eq_any (e : Value) (ys : List Value) :
    anySubset e ys = ys.any (fun l => is_subset e l) := by
  induction ys with
  | nil => simp [anySubset]
  | cons y ys ih => simp [anySubset, ih]

theorem subsetList_eq_all (xs ys : List Value) :
    subsetList xs ys = xs.all (fun e => anySubset e ys) := by
  induction xs with
  | nil => simp [subsetList]
  | cons x xs ih => simp [subsetList, ih]

theorem lookupF_eq_some_of_mem {fs : List (String × Value)} {k : String} {v : Value}
    (hmem : (k, v) ∈ fs) (hnd : Value.keysNodup fs = true) : lookupF fs k = some v := by
  induction fs with
  | nil => cases hmem
  | cons p rest ih =>
    obtain ⟨k', v'⟩ := p
    simp only [Value.keysNodup, Bool.and_eq_true, Bool.not_eq_true'] at hnd
    rcases List.mem_cons.mp hmem with heq | hmem'
    · obtain ⟨hk, hv⟩ := Prod.mk.injEq .. ▸ heq
      simp [lookupF, hk.symm, hv]
    · by_cases hkk : k' = k
      · exfalso
        have : rest.any (fun p => p.1 == k') = true :=
          List.any_eq_true.mpr ⟨(k, v), hmem', by simp [hkk]⟩
        simp [this] at hnd
      · simp [lookupF, hkk]
        exact ih hmem' hnd.2

theorem wfList_mem {xs : List Value} {x : Value}
    (h : Value.wfList xs = true) (hx : x ∈ xs) : Value.wf x = true := by
  induction xs with
  | nil => cases hx
  | cons y ys ih =>
    simp only [Value.wfList, Bool.and_eq_true] at h
    rcases List.mem_cons.mp hx with heq | hmem
    · exact heq ▸ h.1
    · exact ih h.2 hmem

theorem wfFields_mem {fs : List (String × Value)} {p : String × Value}
    (h : Value.wfFields fs = true) (hp : p ∈ fs) : Value.wf p.2 = true := by
  induction fs with
  | nil => cases hp
  | cons q qs ih =>
    obtain ⟨k, v⟩ := q
    simp only [Value.wfFields, Bool.and_eq_true] at h
    rcases List.mem_cons.mp hp with heq | hmem
    · rw [heq]
      exact h.1
    · exact ih h.2 hmem

theorem subsetFields_self {fs gs : List (String × Value)}
    (hl : ∀ p ∈ fs, lookupF gs p.1 = some p.2)
    (hs : ∀ p ∈ fs, is_subset p.2 p.2 = true) : subsetFields fs gs = true := by
  induction fs with
  | nil => simp [subsetFields]
  | cons p rest ih =>
    obtain ⟨k, v⟩ := p
    have h1 := hl (k, v) (by simp)
    have h2 := hs (k, v) (by simp)
    simp only [subsetFields, Bool.and_eq_true]
    constructor
    · simp only at h1
      rw [h1]
      exact h2
    · exact ih (fun q hq => hl q (by simp [hq])) (fun q hq => hs q (by simp [hq]))

/-- Reflexivity of `is_subset` on well-formed (Python-representable)
values. -/
theorem is_subset_refl (v : Value) (h : Value.wf v = true) : is_subset v v = true := by
  induction v using Value.my_ind with
  | hnull => simp [is_subset]
  | hbool b => simp [is_subset]
  | hint n => simp [is_subset]
  | hstr s => simp [is_subset]
  | hlist xs ih =>
    simp only [Value.wf] at h
    simp only [is_subset, subsetList_eq_all, anySubset_eq_any, List.all_eq_true,
      List.any_eq_true]
    intro e he
    exact ⟨e, he, ih e he (wfList_mem h he)⟩
  | hdict fs ih =>
    simp only [Value.wf, Bool.and_eq_true] at h
    simp only [is_subset]
    exact subsetFields_self
      (fun p hp => by
        obtain ⟨k, v⟩ := p
        exact lookupF_eq_some_of_mem hp h.1)
      (fun p hp => ih p hp (wfFields_mem h.2 hp))

/-- C6: `is_subset` is order-independent over sequences — on a pair of
lists it holds exactly when every expected element matches some live
element under `is_subset`, irrespective of position; in particular
`is_subset [x, y] [y, x]` holds for all (Python-representable) `x`, `y`. -/
theorem C6_is_subset_order_independent (x y : Value)
    (hx : Value.wf x = true) (hy : Value.wf y = true) :
    (∀ xs ys : List Value,
      is_subset (.list xs) (.list ys) = true ↔ ∀ e ∈ xs, ∃ l ∈ ys, is_subset e l = true) ∧
    is_subset (.list [x, y]) (.list [y, x]) = true := by
  constructor
  · intro xs ys
    simp [is_subset, subsetList_eq_all, anySubset_eq_any, List.all_eq_true, List.any_eq_true]
  · have hxx := is_subset_refl x hx
    have hyy := is_subset_refl y hy
    simp [is_subset, subsetList, anySubset, hxx, hyy]

/-- Witness for C6 at concrete values. -/
theorem C6_witness :
    Value.wf (.dict [("a", .int 1)]) = true ∧ Value.wf (.str "b") = true ∧
    is_subset (.list [.dict [("a", .int 1)], .str "b"])
      (.list [.str "b", .dict [("a", .int 1)]]) = true :=
  ⟨by simp [Value.wf, Value.keysNodup, Value.wfFields], by simp [Value.wf],
   (C6_is_subset_order_independent (.dict [("a", .int 1)]) (.str "b")
     (by simp [Value.wf, Value.keysNodup, Value.wfFields]) (by simp [Value.wf])).2⟩

/-
C5: the Pod readiness classifier.
-/

theorem containerOk_iff (c : Value)
    (hb : ∀ v, c.get "ready" = some v → ∃ b, v = .bool b) :
    containerOk c = true ↔
      (c.get "ready" = some (.bool true) ∧
       (∀ w, (c.getD "state" (.dict [])).get "waiting" = some w →
         ¬(w.getD "reason" (.str "") = .str "CrashLoopBackOff" ∨
           w.getD "reason" (.str "") = .str "Error")) ∧
       (c.getD "state" (.dict [])).hasKey "terminated" = false) := by
  unfold containerOk
  cases hr : c.get "ready" with
  | none => simp [Value.getD, hr, Value.truthy]
  | some v =>
    obtain ⟨b, rfl⟩ := hb v hr
    cases b with
    | false => simp [Value.getD, hr, Value.truthy]
    | true =>
      simp only [Value.getD, hr, Option.getD_some, Value.truthy, Bool.true_and]
      cases hw : (c.getD "state" (.dict [])).get "waiting" with
      | none =>
        simp only [Value.getD] at hw
        simp [Value.getD, hw]
      | some w =>
        simp only [Value.getD] at hw
        simp [Value.getD, hw]

/-- C5: a live Pod classifies ready iff `status.phase == "Running"`, at
least one container status entry exists, every entry has `ready == true`,
no entry reports a `waiting` state with reason CrashLoopBackOff or Error,
and no entry reports a `terminated` state.  (`hready` records that the
`ready` field of a live container status, when present, is a boolean.) -/
theorem C5_pod_readiness (pod : Value) (cs : List Value)
    (hcs : (pod.getD "status" (.dict [])).getD "containerStatuses" (.list []) = .list cs)
    (hready : ∀ c ∈ cs, ∀ v, c.get "ready" = some v → ∃ b, v = .bool b) :
    is_resource_ready (.str "Pod") pod = true ↔
      ((pod.getD "status" (.dict [])).get "phase" = some (.str "Running") ∧
       cs ≠ [] ∧
       (∀ c ∈ cs, c.get "ready" = some (.bool true)) ∧
       (∀ c ∈ cs, ∀ w, (c.getD "state" (.dict [])).get "waiting" = some w →
         ¬(w.getD "reason" (.str "") = .str "CrashLoopBackOff" ∨
           w.getD "reason" (.str "") = .str "Error")) ∧
       (∀ c ∈ cs, (c.getD "state" (.dict [])).hasKey "terminated" = false)) := by
  have hiff : ∀ c ∈ cs, (containerOk c = true ↔
      (c.get "ready" = some (.bool true) ∧
       (∀ w, (c.getD "state" (.dict [])).get "waiting" = some w →
         ¬(w.getD "reason" (.str "") = .str "CrashLoopBackOff" ∨
           w.getD "reason" (.str "") = .str "Error")) ∧
       (c.getD "state" (.dict [])).hasKey "terminated" = false)) :=
    fun c hc => containerOk_iff c (hready c hc)
  by_cases hphase : (pod.getD "status" (.dict [])).get "phase" = some (.str "Running")
  · simp only [is_resource_ready, hcs, hphase]
    simp only [beq_self_eq_true, Bool.not_true, Bool.false_eq_true, if_false,
      Bool.false_eq_true]
    cases cs with
    | nil => simp [Value.truthy, hphase]
    | cons c0 cs' =>
      simp only [Value.truthy, List.isEmpty_cons, Bool.not_false, Bool.not_true,
        Bool.false_eq_true, if_false, if_true, List.all_eq_true]
      constructor
      · intro h
        refine ⟨trivial, by simp, ?_, ?_, ?_⟩
        · exact fun c hc => ((hiff c hc).mp (h c hc)).1
        · exact fun c hc => ((hiff c hc).mp (h c hc)).2.1
        · exact fun c hc => ((hiff c hc).mp (h c hc)).2.2
      · intro ⟨_, _, h1, h2, h3⟩ c hc
        exact (hiff c hc).mpr ⟨h1 c hc, h2 c hc, h3 c hc⟩
  · simp only [is_resource_ready, hcs]
    have : ((pod.getD "status" (.dict [])).get "phase" == some (.str "Running")) = false := by
      simp [hphase]
    simp [this, hphase]

/-- Witness for C5: the Running/ready one-container Pod of the testable
properties classifies Ready. -/
theorem C5_witness :
    is_resource_ready (.str "Pod")
      (.dict [("status", .dict [("phase", .str "Running"),
        ("containerStatuses", .list [.dict [("ready", .bool true)]])])]) = true :=
  (C5_pod_readiness
    (.dict [("status", .dict [("phase", .str "Running"),
      ("containerStatuses", .list [.dict [("ready", .bool true)]])])])
    [.dict [("ready", .bool true)]]
    (by simp [Value.getD, Value.get, lookupF])
    (by
      intro c hc v hv
      simp at hc
      rw [hc] at hv
      simp [Value.get, lookupF] at hv
      exact ⟨true, hv.symm⟩)).mpr
    ⟨by simp [Value.getD, Value.get, lookupF],
     by simp,
     by intro c hc; simp at hc; rw [hc]; simp [Value.get, lookupF],
     by intro c hc; simp at hc; rw [hc]; simp [Value.getD, Value.get, lookupF],
     by intro c hc; simp at hc; rw [hc]; simp [Value.getD, Value.get, lookupF, Value.hasKey]⟩

/-
C4: Pod replacement — delete, bounded poll, recreate.
-/

/-- The trace of `n` unsuccessful poll attempts (each: sleep 1 time unit,
then read the Pod). -/
def pollTrace : Nat → List ApplyOp
  | 0 => []
  | k + 1 => [.sleep 1, .pollPod] ++ pollTrace k

theorem pod_wait_loop_success (present : Nat → Bool) :
    ∀ k r i, k < r → present (i + k) = false → (∀ j < k, present (i + j) = true) →
      pod_wait_loop present i r = (pollTrace k ++ [.sleep 1, .pollPod, .createPod], true) := by
  intro k
  induction k with
  | zero =>
    intro r i hr habs _
    obtain ⟨r', rfl⟩ : ∃ r', r = r' + 1 := ⟨r - 1, by omega⟩
    simp only [Nat.add_zero] at habs
    simp [pod_wait_loop, habs, pollTrace]
  | succ k ih =>
    intro r i hr habs hpres
    obtain ⟨r', rfl⟩ : ∃ r', r = r' + 1 := ⟨r - 1, by omega⟩
    have h0 : present i = true := by
      have := hpres 0 (by omega)
      simpa using this
    have habs' : present ((i + 1) + k) = false := by
      have : (i + 1) + k = i + (k + 1) := by omega
      rw [this]
      exact habs
    have hpres' : ∀ j < k, present ((i + 1) + j) = true := by
      intro j hj
      have : (i + 1) + j = i + (j + 1) := by omega
      rw [this]
      exact hpres (j + 1) (by omega)
    have hrec := ih r' (i + 1) (by omega) habs' hpres'
    simp [pod_wait_loop, h0, hrec, pollTrace]

theorem pod_wait_loop_timeout (present : Nat → Bool) :
    ∀ r i, (∀ j < r, present (i + j) = true) →
      pod_wait_loop present i r = (pollTrace r, false) := by
  intro r
  induction r with
  | zero =>
    intro i _
    simp [pod_wait_loop, pollTrace]
  | succ r ih =>
    intro i hpres
    have h0 : present i = true := by
      have := hpres 0 (by omega)
      simpa using this
    have hrec := ih (i + 1) (fun j hj => by
      have : (i + 1) + j = i + (j + 1) := by omega
      rw [this]
      exact hpres (j + 1) (by omega))
    simp [pod_wait_loop, h0, hrec, pollTrace]

/-- C4: applying a Pod descriptor when a live Pod with the same name
exists: if the live Pod matches the (namespace-defaulted) descriptor under
`compare_resources`, apply is a read-only no-op; if it differs, apply
deletes the live Pod, polls at most 30 times at a fixed 1-time-unit
interval, creates the new Pod at the first poll that observes
disappearance, and fails with the convergence-timeout error when the Pod
is still present at all 30 polls. -/
theorem C4_pod_apply (m existing : Value) (present : Nat → Bool) (nspace : String)
    (gl : Option Value) (hkind : m.get "kind" = some (.str "Pod")) :
    (compare_resources (with_defaults m nspace) existing = true →
      apply_manifest m nspace ⟨some existing, present, gl⟩ = ([.readPod], none)) ∧
    (compare_resources (with_defaults m nspace) existing = false →
      ((∀ k, k < 30 → present k = false → (∀ j < k, present j = true) →
        apply_manifest m nspace ⟨some existing, present, gl⟩ =
          ([.readPod, .deletePod] ++ pollTrace k ++ [.sleep 1, .pollPod, .createPod], none)) ∧
       ((∀ j < 30, present j = true)→
        apply_manifest m nspace ⟨some existing, present, gl⟩ =
          ([.readPod, .deletePod] ++ pollTrace 30, some .podNotDeleted)))) := by
  refine ⟨fun hmatch => ?_, fun hdiff => ⟨fun k hk habs hpres => ?_, fun hall => ?_⟩⟩
  · simp [apply_manifest, hkind, hmatch]
  · have hloop := pod_wait_loop_success present k 30 0 hk (by simpa using habs)
      (fun j hj => by simpa using hpres j hj)
    simp [apply_manifest, hkind, hdiff, hloop]
  · have hloop := pod_wait_loop_timeout present 30 0 (fun j hj => by simpa using hall j hj)
    simp [apply_manifest, hkind, hdiff, hloop]

/-- Witness for C4 at a concrete Pod manifest whose live Pod differs and
disappears at the third poll. -/
theorem C4_witness :
    apply_manifest (.dict [("kind", .str "Pod"), ("metadata", .dict [("name", .str "p1")])])
      "default" ⟨some (.dict []), fun i => decide (i < 2), none⟩ =
      ([.readPod, .deletePod] ++ pollTrace 2 ++ [.sleep 1, .pollPod, .createPod], none) :=
  ((C4_pod_apply (.dict [("kind", .str "Pod"), ("metadata", .dict [("name", .str "p1")])])
      (.dict []) (fun i => decide (i < 2)) "default" none
      (by simp [Value.get, lookupF])).2
    (by
      simp [with_defaults, set_default, setKey, lookupF, compare_resources, Value.get,
        Value.getD, filter_metadata])).1
    2 (by omega) (by simp) (by intro j hj; simp; omega)

/-
C1: the non-Pod branch of `apply_manifest`.
-/

/-- C1 (amended): for every descriptor whose kind is not Pod,
`apply_manifest` performs a single unconditional generic create
(`create_from_dict`), independent of whether a live object of that kind
and name exists; it never reads or replaces the live object. -/
theorem C1_generic_create (m : Value) (nspace : String) (env : ApplyEnv)
    (hkind : ¬(m.get "kind" = some (.str "Pod"))) :
    apply_manifest m nspace env = ([.createGeneric], none) := by
  have hk : (m.get "kind" == some (.str "Pod")) = false := by
    simp [hkind]
  simp [apply_manifest, hk]

/-- Counterexample to C1 as stated: a ConfigMap descriptor applied while a
live ConfigMap of the same name exists (`genericLive` is populated) issues
exactly one generic create — the trace contains no read of the live object
and no replace, contradicting the claimed read-then-replace behaviour. -/
theorem C1_counterexample :
    apply_manifest (.dict [("kind", .str "ConfigMap"), ("metadata", .dict [("name", .str "cm1")])])
      "default" ⟨none, fun _ => true, some (.dict [("kind", .str "ConfigMap")])⟩ =
      ([.createGeneric], none) ∧
    ApplyOp.readGeneric ∉
      (apply_manifest (.dict [("kind", .str "ConfigMap"), ("metadata", .dict [("name", .str "cm1")])])
        "default" ⟨none, fun _ => true, some (.dict [("kind", .str "ConfigMap")])⟩).1 ∧
    ApplyOp.replaceGeneric ∉
      (apply_manifest (.dict [("kind", .str "ConfigMap"), ("metadata", .dict [("name", .str "cm1")])])
        "default" ⟨none, fun _ => true, some (.dict [("kind", .str "ConfigMap")])⟩).1 := by
  refine ⟨?_, ?_, ?_⟩ <;>
    simp [apply_manifest, Value.get, lookupF]

/-- Witness for the amended C1 at a concrete Service descriptor with a
live object present. -/
theorem C1_witness :
    apply_manifest (.dict [("kind", .str "Service"), ("metadata", .dict [("name", .str "s1")])])
      "default" ⟨none, fun _ => false, some (.dict [])⟩ = ([.createGeneric], none) :=
  C1_generic_create (.dict [("kind", .str "Service"), ("metadata", .dict [("name", .str "s1")])])
    "default" ⟨none, fun _ => false, some (.dict [])⟩
    (by simp [Value.get, lookupF])

/-
C2 and C3: resolution of the expected text.
-/

/-- A concrete environment whose secret store holds secret `s1` (key `k1`,
text `SECRET-TEXT`) in namespace `default` and nothing else. -/
def secretsOne : String → String → Option (List (String × String)) :=
  fun ns sn => if ns = "default" && sn = "s1" then some [("k1", "SECRET-TEXT")] else none

def envRef : ValidateEnv :=
  ⟨fun _ => .ok [], secretsOne, fun _ => .error "no such file", fun _ _ _ => .apiError 404 "Not Found"⟩

/-- C2 (amended): the evaluation-time precedence of the expected-state
sources is `expectedRef` first, then inline `expected`, contrary to the
claimed order: the inline text is used exactly when it is non-empty and no
`expectedRef` is present; whenever an `expectedRef` is present it alone is
consulted (successfully or not), and in particular the inline text is never
used then. -/
theorem C2_precedence (env : ValidateEnv) (spec : LabSpec) (name nspace : String) :
    (strTruthy spec.expected = true → spec.expectedRef = none →
      resolve_expected_yaml env spec name nspace =
        .resolved .inline (spec.expected.getD "")
          ⟨some none, some ⟨some ("lab-" ++ name ++ "-expected"), some "expected.yaml"⟩⟩
          [initializingEvent, labReadyEvent]) ∧
    (∀ r, spec.expectedRef = some r → ∀ sn, r.secretName = some sn →
      resolve_expected_yaml env spec name nspace =
        (match get_expected_yaml_from_secret env.secrets nspace sn (r.key.getD "expected.yaml") with
         | .error e => .raised e
         | .ok text => .resolved .ref text emptySpecPatch [])) ∧
    (∀ r, spec.expectedRef = some r →
      ∀ t sp ev, resolve_expected_yaml env spec name nspace ≠ .resolved .inline t sp ev) := by
  refine ⟨fun h1 h2 => ?_, fun r hr sn hsn => ?_, fun r hr t sp ev => ?_⟩
  · simp [resolve_expected_yaml, h1, h2]
  · have hcond : (strTruthy spec.expected && spec.expectedRef.isNone) = false := by
      simp [hr]
    cases hg : get_expected_yaml_from_secret env.secrets nspace sn (r.key.getD "expected.yaml") <;>
      simp [resolve_expected_yaml, hcond, hr, hsn, hg]
  · have hcond : (strTruthy spec.expected && spec.expectedRef.isNone) = false := by
      simp [hr]
    cases hsn : r.secretName with
    | none => simp [resolve_expected_yaml, hcond, hr, hsn]
    | some sn =>
      cases hg : get_expected_yaml_from_secret env.secrets nspace sn (r.key.getD "expected.yaml") <;>
        simp [resolve_expected_yaml, hcond, hr, hsn, hg]

/-- Counterexample to C2 as stated: a Lab spec carrying both a non-empty
inline `expected` (text `INLINE-TEXT`) and an `expectedRef` resolves the
text from the referenced secret (`SECRET-TEXT`), not from the inline field. -/
theorem C2_counterexample :
    resolve_expected_yaml envRef ⟨some "INLINE-TEXT", some ⟨some "s1", some "k1"⟩, none⟩
      "lab1" "default" = .resolved .ref "SECRET-TEXT" emptySpecPatch [] ∧
    (∀ sp ev, resolve_expected_yaml envRef ⟨some "INLINE-TEXT", some ⟨some "s1", some "k1"⟩, none⟩
      "lab1" "default" ≠ .resolved .inline "INLINE-TEXT" sp ev) := by
  constructor
  · simp [resolve_expected_yaml, strTruthy, get_expected_yaml_from_secret, envRef,
      secretsOne, lookupS]
  · intro sp ev
    simp [resolve_expected_yaml, strTruthy, get_expected_yaml_from_secret, envRef,
      secretsOne, lookupS]

/-- Witness for the amended C2 at the same concrete spec. -/
theorem C2_witness :
    resolve_expected_yaml envRef ⟨some "INLINE-TEXT", some ⟨some "s1", some "k1"⟩, none⟩
      "lab1" "default" = .resolved .ref "SECRET-TEXT" emptySpecPatch [] := by
  have h := (C2_precedence envRef ⟨some "INLINE-TEXT", some ⟨some "s1", some "k1"⟩, none⟩
    "lab1" "default").2.1 ⟨some "s1", some "k1"⟩ rfl "s1" rfl
  rw [h]
  simp [get_expected_yaml_from_secret, envRef, secretsOne, lookupS]

/-- C3 (amended): when the expected text is resolved via `expectedRef` and
the resolve fails (side object or key absent), the exception is raised out
of `validate_lab` to the runtime; no status error is recorded in that
invocation. -/
theorem C3_ref_failure_raises (env : ValidateEnv) (spec : LabSpec) (name nspace : String)
    (body : BodyStatus) (r : ExpectedRef) (sn : String) (e : PyErr)
    (href : spec.expectedRef = some r) (hsn : r.secretName = some sn)
    (hfail : get_expected_yaml_from_secret env.secrets nspace sn (r.key.getD "expected.yaml") =
      .error e) :
    validate_lab env spec name nspace body = .error e := by
  have hcond : (strTruthy spec.expected && spec.expectedRef.isNone) = false := by
    simp [href]
  simp [validate_lab, resolve_expected_yaml, hcond, href, hsn, hfail]

/-- Counterexample to C3 as stated: with an `expectedRef` naming an absent
secret, `validate_lab` raises the NotFound ApiException out of the handler
instead of returning a patch with a status error. -/
theorem C3_counterexample :
    validate_lab envRef ⟨none, some ⟨some "absent", some "k"⟩, none⟩ "lab1" "default"
      ⟨none, none⟩ = .error (.apiException 404 "Not Found") ∧
    (∀ patch events,
      validate_lab envRef ⟨none, some ⟨some "absent", some "k"⟩, none⟩ "lab1" "default"
        ⟨none, none⟩ ≠ .ok (patch, events)) := by
  constructor
  · simp [validate_lab, resolve_expected_yaml, strTruthy, get_expected_yaml_from_secret,
      envRef, secretsOne]
  · intro patch events
    simp [validate_lab, resolve_expected_yaml, strTruthy, get_expected_yaml_from_secret,
      envRef, secretsOne]

/-- Witness for the amended C3: an `expectedRef` whose key is missing from
the (present) secret raises the ValueError out of the handler. -/
theorem C3_witness :
    validate_lab envRef ⟨none, some ⟨some "s1", some "missing"⟩, none⟩ "lab1" "default"
      ⟨none, none⟩ = .error (.valueError "Secret s1 does not have key missing") :=
  C3_ref_failure_raises envRef ⟨none, some ⟨some "s1", some "missing"⟩, none⟩ "lab1" "default"
    ⟨none, none⟩ ⟨some "s1", some "missing"⟩ "s1" (.valueError "Secret s1 does not have key missing")
    rfl rfl
    (by simp [get_expected_yaml_from_secret, envRef, secretsOne, lookupS])

/-
C7: aggregation of the verdict.
-/

theorem classify_body_snd (env : ValidateEnv) (nspace : String)
    (expected kindV nameV nsV : Value) :
    (classify_body env nspace expected kindV nameV nsV).2 =
      ((classify_body env nspace expected kindV nameV nsV).1.status == "Ready") := by
  unfold classify_body
  repeat' split
  all_goals try rfl
  all_goals try simp
  all_goals split <;> simp

theorem classify_one_snd (env : ValidateEnv) (nspace : String) (d : Value)
    (r : ResStatus × Bool) (h : classify_one env nspace d = .ok r) :
    r.2 = (r.1.status == "Ready") := by
  unfold classify_one at h
  cases hs : res_scaffold nspace d with
  | error e => rw [hs] at h; simp at h
  | ok kns =>
    rw [hs] at h
    simp only [Except.ok.injEq] at h
    rw [← h]
    exact classify_body_snd env nspace d kns.1 kns.2.1 kns.2.2

theorem validate_docs_all_match (env : ValidateEnv) (nspace : String) :
    ∀ docs sts am, validate_docs env nspace docs = .ok (sts, am) →
      am = sts.all (fun r => r.status == "Ready") := by
  intro docs
  induction docs with
  | nil =>
    intro sts am h
    simp only [validate_docs, Except.ok.injEq, Prod.mk.injEq] at h
    rw [← h.1, ← h.2]
    simp
  | cons d rest ih =>
    intro sts am h
    unfold validate_docs at h
    cases hc : classify_one env nspace d with
    | error e => rw [hc] at h; simp at h
    | ok r =>
      rw [hc] at h
      cases hv : validate_docs env nspace rest with
      | error e => rw [hv] at h; simp at h
      | ok rs =>
        rw [hv] at h
        simp only [Except.ok.injEq, Prod.mk.injEq] at h
        obtain ⟨h1, h2⟩ := h
        rw [← h1, ← h2]
        have hr2 := classify_one_snd env nspace d r hc
        have hrs := ih rs.1 rs.2 (by rw [hv])
        simp [List.all_cons, hr2, hrs]

/-- C7: the aggregate verdict `all_match` computed by the per-descriptor
loop equals the logical AND over the readiness/match outcome of every
expected descriptor (each descriptor contributes `true` exactly when
its entry classified Ready); an empty expected descriptor list yields
`all_match = true`; and the final patch sets `status.ready` to exactly
`all_match`. -/
theorem C7_all_match (env : ValidateEnv) (nspace : String) :
    (∀ docs sts am, validate_docs env nspace docs = .ok (sts, am) →
      (am = sts.all (fun r => r.status == "Ready") ∧ (docs = [] → am = true))) ∧
    (∀ body text events0 spec_patch docs sts am patch events,
      (if text == "" then Except.ok [] else load_manifests env.yamlDocs text) =
        Except.ok docs →
      validate_docs env nspace docs = .ok (sts, am) →
      run_validation env nspace body text events0 spec_patch = .ok (patch, events) →
      patch.status.ready = some am) := by
  constructor
  · intro docs sts am h
    refine ⟨validate_docs_all_match env nspace docs sts am h, fun hnil => ?_⟩
    rw [hnil] at h
    simp only [validate_docs, Except.ok.injEq, Prod.mk.injEq] at h
    exact h.2.symm
  · intro body text events0 spec_patch docs sts am patch events hparse hdocs hrun
    unfold run_validation at hrun
    rw [hparse] at hrun
    simp only at hrun
    rw [hdocs] at hrun
    simp only [Except.ok.injEq, Prod.mk.injEq] at hrun
    rw [← hrun.1]

/-- Witness for C7: an empty expected list aggregates to `all_match =
true` and patches `status.ready = true`. -/
theorem C7_witness :
    (true = ([] : List ResStatus).all (fun r => r.status == "Ready") ∧
      (([] : List Value) = [] → true = true)) ∧
    (Patch.mk ⟨some true, some (some "The Lab is successfully fixed. Well done!"), some none,
        some []⟩ emptySpecPatch).status.ready = some true :=
  ⟨(C7_all_match envRef "default").1 [] [] true (by simp [validate_docs]),
   (C7_all_match envRef "default").2 ⟨none, none⟩ "" [] emptySpecPatch [] [] true
     (Patch.mk ⟨some true, some (some "The Lab is successfully fixed. Well done!"), some none,
        some []⟩ emptySpecPatch) [labFixedEvent]
     (by simp) (by simp [validate_docs])
     (by simp [run_validation, validate_docs, sortStatuses, readiness_events])⟩

/-
C8 and C9: the tail of the validation pass (status.resources framing and
readiness-transition events), reached here through the `expectedRef`
resolution branch.
-/

theorem validate_lab_ref_run (env : ValidateEnv) (spec : LabSpec) (name nspace : String)
    (body : BodyStatus) (r : ExpectedRef) (sn text : String)
    (href : spec.expectedRef = some r) (hsn : r.secretName = some sn)
    (hres : get_expected_yaml_from_secret env.secrets nspace sn (r.key.getD "expected.yaml") =
      .ok text) :
    validate_lab env spec name nspace body = run_validation env nspace body text [] emptySpecPatch := by
  have hcond : (strTruthy spec.expected && spec.expectedRef.isNone) = false := by
    simp [href]
  simp [validate_lab, resolve_expected_yaml, hcond, href, hsn, hres]

theorem run_validation_ok (env : ValidateEnv) (nspace : String) (body : BodyStatus)
    (text : String) (events0 : List Event) (spec_patch : SpecPatch)
    (docs : List Value) (sts : List ResStatus) (am : Bool)
    (hparse : (if text == "" then Except.ok [] else load_manifests env.yamlDocs text) =
      Except.ok docs)
    (hdocs : validate_docs env nspace docs = .ok (sts, am)) :
    run_validation env nspace body text events0 spec_patch =
      .ok (⟨⟨some am,
             some (if am then some "The Lab is successfully fixed. Well done!" else none),
             some (if am then none
                   else some "The Lab is not fixed yet. Please ensure all resources match the expected configuration."),
             if body.resources == some (sortStatuses sts) then none else some (sortStatuses sts)⟩,
            spec_patch⟩,
        events0 ++ readiness_events am body.ready) := by
  unfold run_validation
  rw [hparse]
  simp only
  rw [hdocs]

/-- C8: readiness events are edge-triggered.  In a validation invocation
that reaches aggregation (here: `expectedRef` resolves and the text
parses), `LabFixed` is emitted exactly when the new verdict is ready and
the stored `status.ready` was not `true`; `LabNotFixed` exactly when the
new verdict is not ready and the stored `status.ready` was not `false`;
and an invocation whose verdict repeats the stored one emits no event. -/
theorem C8_readiness_events (env : ValidateEnv) (spec : LabSpec) (name nspace : String)
    (body : BodyStatus) (r : ExpectedRef) (sn text : String)
    (docs : List Value) (sts : List ResStatus) (am : Bool)
    (patch : Patch) (events : List Event)
    (href : spec.expectedRef = some r) (hsn : r.secretName = some sn)
    (hres : get_expected_yaml_from_secret env.secrets nspace sn (r.key.getD "expected.yaml") =
      .ok text)
    (hparse : (if text == "" then Except.ok [] else load_manifests env.yamlDocs text) =
      Except.ok docs)
    (hdocs : validate_docs env nspace docs = .ok (sts, am))
    (hrun : validate_lab env spec name nspace body = .ok (patch, events)) :
    (labFixedEvent ∈ events ↔ (am = true ∧ body.ready ≠ some true)) ∧
    (labNotFixedEvent ∈ events ↔ (am = false ∧ body.ready ≠ some false)) ∧
    (body.ready = some am → events = []) := by
  rw [validate_lab_ref_run env spec name nspace body r sn text href hsn hres,
    run_validation_ok env nspace body text [] emptySpecPatch docs sts am hparse hdocs] at hrun
  simp only [Except.ok.injEq, Prod.mk.injEq, List.nil_append] at hrun
  rw [← hrun.2]
  cases am with
  | true =>
    cases hb : body.ready with
    | none => simp [readiness_events, labFixedEvent, labNotFixedEvent]
    | some b =>
      cases b with
      | true => simp [readiness_events, labFixedEvent, labNotFixedEvent]
      | false => simp [readiness_events, labFixedEvent, labNotFixedEvent]
  | false =>
    cases hb : body.ready with
    | none => simp [readiness_events, labFixedEvent, labNotFixedEvent]
    | some b =>
      cases b with
      | true => simp [readiness_events, labFixedEvent, labNotFixedEvent]
      | false => simp [readiness_events, labFixedEvent, labNotFixedEvent]

/-- Witness for C8: empty expected docs give verdict ready; stored ready
absent, so exactly `LabFixed` fires. -/
theorem C8_witness :
    (labFixedEvent ∈ [labFixedEvent] ↔ (true = true ∧ (none : Option Bool) ≠ some true)) ∧
    (labNotFixedEvent ∈ [labFixedEvent] ↔ (true = false ∧ (none : Option Bool) ≠ some false)) ∧
    ((none : Option Bool) = some true → [labFixedEvent] = []) :=
  C8_readiness_events envRef ⟨none, some ⟨some "s1", some "k1"⟩, none⟩ "lab1" "default"
    ⟨none, none⟩ ⟨some "s1", some "k1"⟩ "s1" "SECRET-TEXT" [] [] true
    ⟨⟨some true, some (some "The Lab is successfully fixed. Well done!"), some none, some []⟩,
      emptySpecPatch⟩
    [labFixedEvent]
    rfl rfl
    (by simp [get_expected_yaml_from_secret, envRef, secretsOne, lookupS])
    (by simp [load_manifests, envRef, Except.map])
    (by simp [validate_docs])
    (by simp [validate_lab, resolve_expected_yaml, strTruthy, get_expected_yaml_from_secret,
      envRef, secretsOne, lookupS, run_validation, load_manifests, validate_docs,
      sortStatuses, readiness_events, Except.map])

/-- C9: `status.resources` is patched exactly when the newly computed
entry list, sorted by `(kind, namespace, name)`, differs from the
previously stored `status.resources`; when they are equal the field is
left unpatched. -/
theorem C9_resources_framing (env : ValidateEnv) (spec : LabSpec) (name nspace : String)
    (body : BodyStatus) (r : ExpectedRef) (sn text : String)
    (docs : List Value) (sts : List ResStatus) (am : Bool)
    (patch : Patch) (events : List Event)
    (href : spec.expectedRef = some r) (hsn : r.secretName = some sn)
    (hres : get_expected_yaml_from_secret env.secrets nspace sn (r.key.getD "expected.yaml") =
      .ok text)
    (hparse : (if text == "" then Except.ok [] else load_manifests env.yamlDocs text) =
      Except.ok docs)
    (hdocs : validate_docs env nspace docs = .ok (sts, am))
    (hrun : validate_lab env spec name nspace body = .ok (patch, events)) :
    (body.resources = some (sortStatuses sts) → patch.status.resources = none) ∧
    (body.resources ≠ some (sortStatuses sts) → patch.status.resources = some (sortStatuses sts)) := by
  rw [validate_lab_ref_run env spec name nspace body r sn text href hsn hres,
    run_validation_ok env nspace body text [] emptySpecPatch docs sts am hparse hdocs] at hrun
  simp only [Except.ok.injEq, Prod.mk.injEq, List.nil_append] at hrun
  rw [← hrun.1]
  constructor
  · intro h
    simp [h]
  · intro h
    simp [h]

/-- Witness for C9: with no previously stored `status.resources`, the
(empty) sorted list differs from the stored value and is patched. -/
theorem C9_witness :
    (Patch.mk ⟨some true, some (some "The Lab is successfully fixed. Well done!"), some none,
      some []⟩ emptySpecPatch).status.resources = some (sortStatuses []) :=
  (C9_resources_framing envRef ⟨none, some ⟨some "s1", some "k1"⟩, none⟩ "lab1" "default"
    ⟨none, none⟩ ⟨some "s1", some "k1"⟩ "s1" "SECRET-TEXT" [] [] true
    ⟨⟨some true, some (some "The Lab is successfully fixed. Well done!"), some none, some []⟩,
      emptySpecPatch⟩
    [labFixedEvent]
    rfl rfl
    (by simp [get_expected_yaml_from_secret, envRef, secretsOne, lookupS])
    (by simp [load_manifests, envRef, Except.map])
    (by simp [validate_docs])
    (by simp [validate_lab, resolve_expected_yaml, strTruthy, get_expected_yaml_from_secret,
      envRef, secretsOne, lookupS, run_validation, load_manifests, validate_docs,
      sortStatuses, readiness_events, Except.map])).2
    (by simp [sortStatuses])

/-
C10: an apiVersion-only difference can never classify NotMatching.
Supporting lemmas: `find_mismatches` returns no mismatch when the live
value agrees with the expected one on every key other than `apiVersion`.
-/

theorem hasKey_of_lookupF {gs : List (String × Value)} {k : String} {v : Value}
    (h : lookupF gs k = some v) : Value.hasKey (.dict gs) k = true := by
  induction gs with
  | nil => simp [lookupF] at h
  | cons p rest ih =>
    obtain ⟨k', v'⟩ := p
    simp only [lookupF] at h
    by_cases hk : k' = k
    · simp [Value.hasKey, hk]
    · rw [if_neg hk] at h
      have := ih h
      simp [Value.hasKey] at this ⊢
      exact Or.inr this

theorem pySetList_len_subset :
    ∀ n (l : List (Option Value × Option Value)), l.length ≤ n →
      ∀ x ∈ pySetList l, x ∈ l := by
  intro n
  induction n with
  | zero =>
    intro l hl x hx
    rw [List.length_eq_zero.mp (Nat.le_zero.mp hl)] at hx ⊢
    simpa [pySetList] using hx
  | succ n ih =>
    intro l hl x hx
    cases l with
    | nil => simpa [pySetList] using hx
    | cons a as =>
      rw [pySetList] at hx
      rcases List.mem_cons.mp hx with heq | hmem
      · simp [heq]
      · have hlen : (as.filter (fun y => !(y == a))).length ≤ n := by
          have h1 := List.length_filter_le (fun y => !(y == a)) as
          simp at hl
          omega
        have := ih _ hlen x hmem
        exact List.mem_cons_of_mem a (List.mem_of_mem_filter this)

theorem pySetList_subset {l : List (Option Value × Option Value)} {x : Option Value × Option Value}
    (hx : x ∈ pySetList l) : x ∈ l :=
  pySetList_len_subset l.length l (Nat.le_refl _) x hx

theorem mountMismatches_self (xs : List Value) (path : String) :
    mountMismatches xs xs path = [] := by
  unfold mountMismatches
  refine List.filterMap_eq_nil_iff.mpr ?_
  intro m hm
  have hmem : m ∈ mountPairs xs := pySetList_subset hm
  simp [hmem]

/-- Keys of a Python dict-comprehension result are pairwise distinct. -/
def volNodup (l : List (Option Value × Value)) : Prop :=
  l.Pairwise (fun a b => a.1 ≠ b.1)

theorem upsertVol_nodup {acc : List (Option Value × Value)} {k : Option Value} {v : Value}
    (h : volNodup acc) : volNodup (upsertVol acc k v) := by
  unfold upsertVol
  by_cases hany : acc.any (fun p => p.1 == k) = true
  · rw [if_pos hany]
    have hfst : ∀ p : Option Value × Value,
        (if p.1 == k then (p.1, v) else p).1 = p.1 := by
      intro p
      by_cases hp : p.1 == k <;> simp [hp]
    refine List.Pairwise.map _ (fun a b hab => ?_) h
    rw [hfst a, hfst b]
    exact hab
  · rw [if_neg hany]
    rw [volNodup, List.pairwise_append]
    refine ⟨h, List.pairwise_singleton _ _, ?_⟩
    intro a ha b hb
    simp only [List.mem_singleton] at hb
    subst hb
    rw [List.any_eq_true] at hany
    intro hcon
    exact hany ⟨a, ha, by simp [hcon]⟩

theorem volsByName_go_nodup (xs : List Value) :
    ∀ acc, volNodup acc → volNodup (xs.foldl (fun acc v => upsertVol acc (v.get "name") v) acc) := by
  induction xs with
  | nil => intro acc h; simpa using h
  | cons x xs ih =>
    intro acc h
    simp only [List.foldl_cons]
    exact ih _ (upsertVol_nodup h)

theorem volsByName_nodup (xs : List Value) : volNodup (volsByName xs) :=
  volsByName_go_nodup xs [] (List.Pairwise.nil)

theorem lookupVol_of_mem_nodup {l : List (Option Value × Value)} {k : Option Value} {v : Value}
    (hmem : (k, v) ∈ l) (hnd : volNodup l) : lookupVol l k = some v := by
  induction l with
  | nil => cases hmem
  | cons p rest ih =>
    obtain ⟨k', v'⟩ := p
    rw [volNodup, List.pairwise_cons] at hnd
    rcases List.mem_cons.mp hmem with heq | hmem'
    · obtain ⟨hk, hv⟩ := Prod.mk.injEq .. ▸ heq
      simp [lookupVol, hk.symm, hv]
    · have hkk : k' ≠ k := by
        intro hcon
        exact (hnd.1 (k, v) hmem') (by rw [hcon])
      simp only [lookupVol, if_neg hkk]
      exact ih hmem' hnd.2

theorem volMismatches_self (xs : List Value) (path : String) :
    volMismatches xs xs path = [] := by
  unfold volMismatches
  refine List.bind_eq_nil.mpr ?_
  intro p hp
  have hl : lookupVol (volsByName xs) p.1 = some p.2 :=
    lookupVol_of_mem_nodup (by simpa using hp) (volsByName_nodup xs)
  rw [hl]
  by_cases hpvc : p.2.hasKey "persistentVolumeClaim" = true <;> simp [hpvc]

theorem fmIndex_refl (xs : List Value)
    (h : ∀ e ∈ xs, ∀ pth, find_mismatches e e pth = []) :
    ∀ path i, fmIndex xs xs path i = [] := by
  induction xs with
  | nil => intro path i; simp [fmIndex]
  | cons e es ih =>
    intro path i
    rw [fmIndex]
    rw [h e (by simp) _, ih (fun e' he' => h e' (by simp [he'])) path (i + 1)]
    simp

theorem fmFields_nil (fs : List (String × Value)) (gs : List (String × Value)) (path : String)
    (hl : ∀ p ∈ fs, p.1 ≠ "apiVersion" → lookupF gs p.1 = some p.2)
    (h2 : ∀ p ∈ fs, ∀ pth, find_mismatches p.2 p.2 pth = []) :
    fmFields fs (.dict gs) path = [] := by
  induction fs with
  | nil => simp [fmFields]
  | cons p rest ih =>
    obtain ⟨k, v⟩ := p
    by_cases hapi : k = "apiVersion"
    · rw [fmFields, if_pos hapi]
      exact ih (fun q hq => hl q (by simp [hq])) (fun q hq => h2 q (by simp [hq]))
    · rw [fmFields, if_neg hapi]
      have hlk : lookupF gs k = some v := hl (k, v) (by simp) hapi
      have hhk : Value.hasKey (.dict gs) k = true := hasKey_of_lookupF hlk
      have hgk : Value.get (.dict gs) k = some v := by simpa [Value.get] using hlk
      rw [hhk]
      simp only [Bool.not_true, Bool.false_eq_true, if_false]
      have hrest := ih (fun q hq => hl q (by simp [hq])) (fun q hq => h2 q (by simp [hq]))
      rw [hrest, List.append_nil]
      cases v with
      | dict fs' => rw [hgk]; exact h2 (k, .dict fs') (by simp) _
      | list xs' => rw [hgk]; exact h2 (k, .list xs') (by simp) _
      | null => rw [hgk]; simp
      | bool b => rw [hgk]; simp
      | int n => rw [hgk]; simp
      | str s => rw [hgk]; simp

/-- On well-formed values, `find_mismatches` of a value against itself is
empty at every path. -/
theorem find_mismatches_refl (v : Value) :
    ∀ path, Value.wf v = true → find_mismatches v v path = [] := by
  induction v using Value.my_ind with
  | hnull => intro path _; simp [find_mismatches]
  | hbool b => intro path _; simp [find_mismatches]
  | hint n => intro path _; simp [find_mismatches]
  | hstr s => intro path _; simp [find_mismatches]
  | hlist xs ih =>
    intro path hwf
    simp only [Value.wf] at hwf
    rw [find_mismatches]
    by_cases h1 : path.endsWith "volumeMounts" = true
    · simp [h1, mountMismatches_self]
    · by_cases h2 : path.endsWith "volumes" = true
      · simp [h1, h2, volMismatches_self]
      · simp only [h1, h2, Bool.false_eq_true, if_false]
        exact fmIndex_refl xs (fun e he pth => ih e he pth (wfList_mem hwf he)) path 0
  | hdict fs ih =>
    intro path hwf
    simp only [Value.wf, Bool.and_eq_true] at hwf
    rw [find_mismatches]
    exact fmFields_nil fs fs path
      (fun p hp _ => by
        obtain ⟨k, v⟩ := p
        exact lookupF_eq_some_of_mem hp hwf.1)
      (fun p hp pth => ih p hp pth (wfFields_mem hwf.2 hp))

/-- C10: for an expected/live pair of non-Pod kind where the live value
agrees with the expected one on every top-level key except `apiVersion`
(on which they differ), `compare_resources` is false while
`find_mismatches` is empty (it skips `apiVersion`), so the per-descriptor
classification falls back to the readiness check and the entry is Ready or
NotReady — never NotMatching. -/
theorem C10_apiVersion_only (fs gs : List (String × Value)) (K : String)
    (hwf : Value.wf (.dict fs) = true)
    (hkeys : ∀ k, k ≠ "apiVersion" → lookupF fs k = lookupF gs k)
    (hapi : lookupF fs "apiVersion" ≠ lookupF gs "apiVersion")
    (hkind : lookupF fs "kind" = some (.str K))
    (hK : K ≠ "Pod") :
    compare_resources (.dict fs) (.dict gs) = false ∧
    find_mismatches (.dict fs) (.dict gs) "" = [] ∧
    (∀ env nspace kindV nameV nsV,
      try_fetch env nspace (.dict fs) = .ok (.dict gs) →
      ((classify_body env nspace (.dict fs) kindV nameV nsV).1.status =
        (if is_resource_ready kindV (.dict gs) then "Ready" else "NotReady") ∧
       (classify_body env nspace (.dict fs) kindV nameV nsV).1.status ≠ "NotMatching")) := by
  simp only [Value.wf, Bool.and_eq_true] at hwf
  have hb : (lookupF fs "apiVersion" == lookupF gs "apiVersion") = false := by
    rw [beq_eq_false_iff_ne]
    exact hapi
  have hcmp : compare_resources (.dict fs) (.dict gs) = false := by
    by_cases h1 : K = "ConfigMap"
    · simp [compare_resources, Value.get, hkind, h1, hb]
    · by_cases h2 : K = "Secret"
      · simp [compare_resources, Value.get, hkind, h2, hb]
      · simp [compare_resources, Value.get, hkind, h1, h2, hK, hb]
  have hfm : find_mismatches (.dict fs) (.dict gs) "" = [] := by
    rw [find_mismatches]
    refine fmFields_nil fs gs "" ?_ ?_
    · intro p hp hne
      rw [← hkeys p.1 hne]
      obtain ⟨k, v⟩ := p
      exact lookupF_eq_some_of_mem hp hwf.1
    · intro p hp pth
      exact find_mismatches_refl p.2 pth (wfFields_mem hwf.2 hp)
  refine ⟨hcmp, hfm, ?_⟩
  intro env nspace kindV nameV nsV hf
  by_cases hr : is_resource_ready kindV (.dict gs) = true
  · simp [classify_body, hf, hcmp, hfm, hr]
  · simp [classify_body, hf, hcmp, hfm, hr]

/-- Concrete Service descriptor and live object differing only in
`apiVersion`, plus the environment whose live read returns that object. -/
def svcExpected : List (String × Value) :=
  [("kind", .str "Service"), ("apiVersion", .str "v1"),
   ("metadata", .dict [("name", .str "svc1")])]

def svcLive : List (String × Value) :=
  [("kind", .str "Service"), ("apiVersion", .str "v2"),
   ("metadata", .dict [("name", .str "svc1")])]

def envSvc : ValidateEnv :=
  ⟨fun _ => .ok [], fun _ _ => none, fun _ => .error "no such file",
   fun _ _ _ => .found (.dict svcLive)⟩

/-- Witness for C10 at the concrete Service pair. -/
theorem C10_witness :
    compare_resources (.dict svcExpected) (.dict svcLive) = false ∧
    find_mismatches (.dict svcExpected) (.dict svcLive) "" = [] ∧
    ((classify_body envSvc "default" (.dict svcExpected) (.str "Service") (.str "svc1")
        (.str "default")).1.status =
      (if is_resource_ready (.str "Service") (.dict svcLive) then "Ready" else "NotReady") ∧
     (classify_body envSvc "default" (.dict svcExpected) (.str "Service") (.str "svc1")
        (.str "default")).1.status ≠ "NotMatching") := by
  have h := C10_apiVersion_only svcExpected svcLive "Service"
    (by simp [svcExpected, Value.wf, Value.keysNodup, Value.wfFields, Value.wfList])
    (by
      intro k hk
      simp only [svcExpected, svcLive, lookupF]
      by_cases h1 : "kind" = k
      · simp [h1]
      · by_cases h2 : "apiVersion" = k
        · exact absurd h2.symm hk
        · by_cases h3 : "metadata" = k <;> simp [h1, h2, h3])
    (by simp [svcExpected, svcLive, lookupF])
    (by simp [svcExpected, lookupF])
    (by simp)
  refine ⟨h.1, h.2.1, h.2.2 envSvc "default" (.str "Service") (.str "svc1") (.str "default") ?_⟩
  simp [try_fetch, Value.pyIndex, Value.pyGet, lookupF, svcExpected, svcLive, envSvc,
    get_live_resource, dict_keys_to_camel, camelFields, camelList,
    show to_camel_case "kind" = "kind" from rfl,
    show to_camel_case "apiVersion" = "apiVersion" from rfl,
    show to_camel_case "metadata" = "metadata" from rfl,
    show to_camel_case "name" = "name" from rfl]
